import Mathlib

/-!
Shallow embedding of the order-fulfillment core of the restaurant-service
backend (Go): the order repository (`OrderRepository.Create`,
`UpdateStatus`, `UpdateItemStatus`, `VoidItem` in
internal/db/repository/order_repo.go), the order service
(`OrderService.CreateOrder`, `processNewOrder` in internal/service/order.go)
and the websocket broadcast hub (internal/websockets/hub.go).

Conventions of the embedding:
- Monetary amounts (DECIMAL(10,2) columns, Go float64) are modelled as `Int`
  (an exact model of fixed-point decimals; all arithmetic in the source is
  addition, subtraction and multiplication).
- UUIDs are modelled as `Nat`; row ids are drawn from a `nextId` counter.
- Timestamps are `Nat`.
- A SQL transaction is modelled by returning `Except`: on `.error` the caller
  keeps its original `DB` value (rollback).  Non-transactional sequences of
  statements return `DB × Option RepoError`, where the returned `DB` keeps the
  effects of the statements that had already been executed (auto-commit).
- `failAt` parameters inject a storage failure at the n-th SQL statement of an
  operation, to reason about partial-failure behaviour.
-/

/-- Error taxonomy as observed from the repository layer: `notFound` stands for
`sql.ErrNoRows` / "not found" errors, `checkViolation` for a database CHECK
constraint rejection, `persistence` for any other storage failure. -/
inductive RepoError where
  | notFound
  | checkViolation
  | persistence
deriving DecidableEq, Repr

/-- Order status enum (internal/models/order.go). -/
inductive OrderStatus where
  | new
  | inProgress
  | completed
  | cancelled
deriving DecidableEq, Repr

/-- Order item status enum (internal/models/order.go). -/
inductive OrderItemStatus where
  | pending
  | inProgress
  | completed
  | cancelled
deriving DecidableEq, Repr

instance : BEq OrderStatus := ⟨fun a b => decide (a = b)⟩
instance : BEq OrderItemStatus := ⟨fun a b => decide (a = b)⟩

@[simp] theorem orderStatus_beq_iff (a b : OrderStatus) : (a == b) = true ↔ a = b := by
  change decide (a = b) = true ↔ a = b
  simp

@[simp] theorem orderItemStatus_beq_iff (a b : OrderItemStatus) : (a == b) = true ↔ a = b := by
  change decide (a = b) = true ↔ a = b
  simp

/-- Row of the menu_items table (the columns the order path reads). -/
structure MenuItem where
  id : Nat
  name : String
  price : Int
deriving DecidableEq, Repr

/-- Row of the routing_rules table. -/
structure RoutingRule where
  id : Nat
  menuItemId : Nat
  stationId : Nat
  priority : Int
deriving DecidableEq, Repr

/-- Row of the modifier_options table (the columns the order path reads). -/
structure ModifierOption where
  id : Nat
  name : String
  priceAdjustment : Int
deriving DecidableEq, Repr

/-- Row of the stations table (the columns order processing reads). -/
structure Station where
  id : Nat
  printerId : Option Nat
deriving DecidableEq, Repr

/-- Row of the orders table. -/
structure Order where
  id : Nat
  userId : Nat
  orderNumber : String
  status : OrderStatus
  total : Int
  completedAt : Option Nat
deriving DecidableEq, Repr

/-- Row of the order_items table, together with the joined menu-item name
(models.OrderItem). -/
structure OrderItem where
  id : Nat
  orderId : Nat
  menuItemId : Nat
  stationId : Nat
  quantity : Int
  price : Int
  status : OrderItemStatus
  specialInstructions : Option String
  sentToStationAt : Option Nat
  completedAt : Option Nat
  name : String
deriving DecidableEq, Repr

/-- Row of the order_item_modifiers table, with the joined option name. -/
structure OrderItemModifier where
  id : Nat
  orderItemId : Nat
  modifierOptionId : Nat
  priceAdjustment : Int
  name : String
deriving DecidableEq, Repr

/-- Database state: the tables touched by the order-fulfillment core, plus an
id counter standing for the uuid defaults. -/
structure DB where
  menuItems : List MenuItem
  routingRules : List RoutingRule
  modifierOptions : List ModifierOption
  stations : List Station
  orders : List Order
  orderItems : List OrderItem
  orderItemModifiers : List OrderItemModifier
  nextId : Nat
deriving DecidableEq, Repr

/-- Modifier selection of an order line (models.OrderModifierRequest). -/
structure OrderModifierRequest where
  optionId : Nat
deriving DecidableEq, Repr

/-- One line of an order-creation request (models.OrderItemRequest). -/
structure OrderItemRequest where
  menuItemId : Nat
  quantity : Int
  specialInstructions : Option String
  modifiers : List OrderModifierRequest
deriving DecidableEq, Repr

/-- SELECT name, price FROM menu_items WHERE id = $1. -/
def findMenuItem (db : DB) (mid : Nat) : Option MenuItem :=
  db.menuItems.find? (fun m => m.id == mid)

/-- SELECT name, price_adjustment FROM modifier_options WHERE id = $1. -/
def findModifierOption (db : DB) (oid : Nat) : Option ModifierOption :=
  db.modifierOptions.find? (fun o => o.id == oid)

/-- The routing rules of one menu item (the rows matching the WHERE clause of
the routing query in `OrderRepository.Create`). -/
def rulesFor (db : DB) (mid : Nat) : List RoutingRule :=
  db.routingRules.filter (fun r => r.menuItemId == mid)

/-- ORDER BY priority ASC LIMIT 1 over a non-empty rule list: a rule of
minimal priority (first listed rule among ties, a determinization of the
unspecified SQL tie order). -/
def pickMinPriority : List RoutingRule → Option RoutingRule
  | [] => none
  | r :: rs => some (rs.foldl (fun b x => if x.priority < b.priority then x else b) r)

/-- SELECT station_id FROM routing_rules WHERE menu_item_id = $1
ORDER BY priority ASC LIMIT 1 (`OrderRepository.Create`, order_repo.go:189). -/
def resolveStation (db : DB) (mid : Nat) : Option Nat :=
  (pickMinPriority (rulesFor db mid)).map (fun r => r.stationId)

/-- Insertion of the order_item_modifiers rows of one line
(`OrderRepository.Create`, order_repo.go:237-279): look up each selected
option (error `notFound` when absent, sql.ErrNoRows), accumulate its price
adjustment and build the modifier rows.  `startId` is the id counter for the
inserted rows; returns (rows, sum of adjustments, next id). -/
def buildModifiers (db : DB) (itemId : Nat) :
    Nat → List OrderModifierRequest → Except RepoError (List OrderItemModifier × Int × Nat)
  | startId, [] => .ok ([], 0, startId)
  | startId, m :: ms =>
    match findModifierOption db m.optionId with
    | none => .error .notFound
    | some opt =>
      match buildModifiers db itemId (startId + 1) ms with
      | .error e => .error e
      | .ok (rest, adj, nid) =>
        .ok ({ id := startId, orderItemId := itemId, modifierOptionId := m.optionId,
               priceAdjustment := opt.priceAdjustment, name := opt.name } :: rest,
             opt.priceAdjustment + adj, nid)

/-- Per-line work of `OrderRepository.Create` (order_repo.go:169-297), for the
whole request list: menu-item lookup (name and base price, two SELECTs on the
same row inside one transaction, merged), routing resolution, order_items
insert (the schema CHECK quantity > 0 fires here), modifier processing, and
the price update (CHECK price >= 0).  All lookups read the catalog tables,
which the transaction never writes.  Returns (item rows, modifier rows,
running total, next id). -/
def createLines (db : DB) (orderId : Nat) :
    Nat → List OrderItemRequest → Except RepoError (List OrderItem × List OrderItemModifier × Int × Nat)
  | nid, [] => .ok ([], [], 0, nid)
  | nid, req :: reqs =>
    match findMenuItem db req.menuItemId with
    | none => .error .notFound
    | some mi =>
      match resolveStation db req.menuItemId with
      | none => .error .notFound
      | some sid =>
        if req.quantity ≤ 0 then .error .checkViolation
        else
          match buildModifiers db nid (nid + 1) req.modifiers with
          | .error e => .error e
          | .ok (mods, adj, nid2) =>
            let price := mi.price + adj
            if price < 0 then .error .checkViolation
            else
              match createLines db orderId nid2 reqs with
              | .error e => .error e
              | .ok (items, allMods, total, nid3) =>
                .ok ({ id := nid, orderId := orderId, menuItemId := req.menuItemId,
                       stationId := sid, quantity := req.quantity, price := price,
                       status := .pending, specialInstructions := req.specialInstructions,
                       sentToStationAt := none, completedAt := none, name := mi.name } :: items,
                     mods ++ allMods, price * req.quantity + total, nid3)

/-- `OrderRepository.Create` (order_repo.go:132-317): one transaction that
inserts the order row (status as passed by the caller, total 0), inserts every
line and its modifiers, and finally writes the accumulated total back to the
order.  Any failure rolls the transaction back, which the embedding expresses
by returning `.error` (the caller keeps its original `DB`).  Returns the new
database, the created order row (with its final total, as the returned
in-memory order carries it) and the created item rows. -/
def create (db : DB) (userId : Nat) (orderNumber : String) (status : OrderStatus)
    (reqs : List OrderItemRequest) : Except RepoError (DB × Order × List OrderItem) :=
  let oid := db.nextId
  match createLines db oid (db.nextId + 1) reqs with
  | .error e => .error e
  | .ok (items, mods, total, nid) =>
    let order : Order := { id := oid, userId := userId, orderNumber := orderNumber,
                           status := status, total := total, completedAt := none }
    .ok ({ db with orders := db.orders ++ [order],
                   orderItems := db.orderItems ++ items,
                   orderItemModifiers := db.orderItemModifiers ++ mods,
                   nextId := nid },
         order, items)

/-- Database state observed by the caller of `Create`: the new state on
success, the untouched original on error (transaction rollback). -/
def runCreate (db : DB) (userId : Nat) (orderNumber : String) (status : OrderStatus)
    (reqs : List OrderItemRequest) : DB :=
  match create db userId orderNumber status reqs with
  | .ok (db', _, _) => db'
  | .error _ => db

/-- Effect of the UPDATE orders SET status ... statement on one row
(`OrderRepository.UpdateStatus`, order_repo.go:320-355): transitioning to
completed also stamps completed_at. -/
def applyOrderStatus (o : Order) (status : OrderStatus) (now : Nat) : Order :=
  if status = .completed then { o with status := status, completedAt := some now }
  else { o with status := status }

/-- `OrderRepository.UpdateStatus`: a single auto-committed UPDATE; zero rows
affected is reported as "order not found". -/
def updateStatus (db : DB) (oid : Nat) (status : OrderStatus) (now : Nat) :
    DB × Option RepoError :=
  if db.orders.any (fun o => o.id == oid) then
    ({ db with orders := db.orders.map (fun o =>
        if o.id == oid then applyOrderStatus o status now else o) }, none)
  else (db, some .notFound)

/-- Effect of the UPDATE order_items SET status ... statement on one row
(`OrderRepository.UpdateItemStatus`, order_repo.go:358-380): completed stamps
completed_at; in_progress stamps sent_to_station_at only when it is NULL
(CASE WHEN sent_to_station_at IS NULL THEN $3 ELSE sent_to_station_at END). -/
def applyItemStatus (i : OrderItem) (status : OrderItemStatus) (now : Nat) : OrderItem :=
  if status = .completed then { i with status := status, completedAt := some now }
  else if status = .inProgress then
    { i with status := status,
             sentToStationAt := match i.sentToStationAt with
                                | none => some now
                                | some t => some t }
  else { i with status := status }

/-- `OrderRepository.UpdateItemStatus` (order_repo.go:358-433).  This is NOT a
transaction: it is a sequence of auto-committed statements on `r.db`,
numbered for fault injection as
  0 - UPDATE order_items (status, timestamps),
  1 - SELECT order_id FROM order_items WHERE id = $1,
  2 - SELECT COUNT(*) FROM order_items WHERE order_id = $1 AND status != completed,
  3 - UPDATE orders SET status = completed (via `r.UpdateStatus`).
Statements 1-3 run only when the new status is completed; statement 3 only
when the count is zero.  `failAt = some k` makes statement k fail; the
returned `DB` keeps the effects of the statements already executed. -/
def updateItemStatus (db : DB) (itemId : Nat) (status : OrderItemStatus) (now : Nat)
    (failAt : Option Nat) : DB × Option RepoError :=
  if failAt = some 0 then (db, some .persistence)
  else if db.orderItems.any (fun i => i.id == itemId) then
    let db1 := { db with orderItems := db.orderItems.map (fun i =>
        if i.id == itemId then applyItemStatus i status now else i) }
    if status = .completed then
      if failAt = some 1 then (db1, some .persistence)
      else
        match db1.orderItems.find? (fun i => i.id == itemId) with
        | none => (db1, some .notFound)
        | some it =>
          if failAt = some 2 then (db1, some .persistence)
          else
            let pendingCount := db1.orderItems.countP
                (fun i => i.orderId == it.orderId && !(i.status == OrderItemStatus.completed))
            if pendingCount = 0 then
              if failAt = some 3 then (db1, some .persistence)
              else updateStatus db1 it.orderId .completed now
            else (db1, none)
    else (db1, none)
  else (db, some .notFound)

/-- Effect of the void UPDATE on one order_items row
(`OrderRepository.VoidItem`, order_repo.go:512-521): status becomes cancelled
and "\n[VOIDED: reason]" is appended to the instructions (COALESCE with '').
No guard on the current status. -/
def applyVoid (i : OrderItem) (reason : String) : OrderItem :=
  { i with status := .cancelled,
           specialInstructions :=
             some ((i.specialInstructions.getD "") ++ "\n[VOIDED: " ++ reason ++ "]") }

/-- `OrderRepository.VoidItem` (order_repo.go:499-561): one transaction that
cancels the item row, reads back its order_id, price and quantity (error
`notFound` when the row is absent - the UPDATE itself matches zero rows
silently) and decrements the owning order's total by price * quantity.
Rollback on error is expressed by returning `.error`. -/
def voidItem (db : DB) (itemId : Nat) (reason : String) : Except RepoError DB :=
  let db1 : DB := { db with orderItems := db.orderItems.map (fun i =>
      if i.id == itemId then applyVoid i reason else i) }
  match db1.orderItems.find? (fun i => i.id == itemId) with
  | none => .error .notFound
  | some it =>
    .ok ({ db1 with orders := db1.orders.map (fun o =>
        if o.id == it.orderId then { o with total := o.total - it.price * it.quantity } else o) } : DB)

/-- Database state observed by the caller of `VoidItem` (rollback on error). -/
def runVoid (db : DB) (itemId : Nat) (reason : String) : DB :=
  match voidItem db itemId reason with
  | .ok db' => db'
  | .error _ => db

/-- Grouping of the created items by station (`processNewOrder`,
internal/service/order.go:81-85).  The Go code builds a map and iterates it in
unspecified order; the embedding determinizes to first-appearance order, which
is one of the admissible iteration orders. -/
def groupInsert (groups : List (Nat × List OrderItem)) (item : OrderItem) :
    List (Nat × List OrderItem) :=
  if groups.any (fun g => g.1 == item.stationId) then
    groups.map (fun g => if g.1 == item.stationId then (g.1, g.2 ++ [item]) else g)
  else groups ++ [(item.stationId, [item])]

/-- Items grouped by their routed station. -/
def groupByStation (items : List OrderItem) : List (Nat × List OrderItem) :=
  items.foldl groupInsert []

/-- Transition of every item of one station group to in_progress
(`processNewOrder`, order.go:103-109): one `UpdateItemStatus` call per item,
stopping at the first error. -/
def processGroupItems (now : Nat) : DB → List OrderItem → DB × Option RepoError
  | db, [] => (db, none)
  | db, i :: is =>
    match updateItemStatus db i.id .inProgress now none with
    | (db1, some e) => (db1, some e)
    | (db1, none) => processGroupItems now db1 is

/-- The per-station loop of `processNewOrder` (order.go:88-110): look the
station up (error aborts), print a ticket when the station has a printer
(`printOk p = false` models a `PrintOrderItems` failure, which the Go code
RETURNS, aborting the loop), then transition the group's items.  Any error
stops the whole loop; the effects already applied remain (nothing here is
transactional). -/
def processGroups (printOk : Nat → Bool) (now : Nat) :
    DB → List (Nat × List OrderItem) → DB × Option RepoError
  | db, [] => (db, none)
  | db, (sid, items) :: gs =>
    match db.stations.find? (fun s => s.id == sid) with
    | none => (db, some .notFound)
    | some st =>
      match st.printerId with
      | some p =>
        if printOk p then
          match processGroupItems now db items with
          | (db1, some e) => (db1, some e)
          | (db1, none) => processGroups printOk now db1 gs
        else (db, some .persistence)
      | none =>
        match processGroupItems now db items with
        | (db1, some e) => (db1, some e)
        | (db1, none) => processGroups printOk now db1 gs

/-- `OrderService.processNewOrder` (order.go:73-113): set the order to
in_progress, then run the per-station loop over the created items. -/
def processNewOrder (printOk : Nat → Bool) (db : DB) (orderId : Nat)
    (items : List OrderItem) (now : Nat) : DB × Option RepoError :=
  match updateStatus db orderId .inProgress now with
  | (db1, some e) => (db1, some e)
  | (db1, none) => processGroups printOk now db1 (groupByStation items)

/-- `OrderService.CreateOrder` (order.go:43-70): create the order (status new)
through the repository; on success run `processNewOrder`, whose error is only
logged - the call still returns the created order, over whatever state
processing reached. -/
def serviceCreateOrder (printOk : Nat → Bool) (db : DB) (userId : Nat)
    (orderNumber : String) (reqs : List OrderItemRequest) (now : Nat) :
    Except RepoError (DB × Order) :=
  match create db userId orderNumber .new reqs with
  | .error e => .error e
  | .ok (db1, order, items) =>
    let (db2, _) := processNewOrder printOk db1 order.id items now
    .ok (db2, order)

/-- Contribution of one item row to the non-cancelled total of order `oid`. -/
def itemContribution (oid : Nat) (i : OrderItem) : Int :=
  if i.orderId = oid ∧ i.status ≠ .cancelled then i.price * i.quantity else 0

/-- Sum over the non-cancelled items of order `oid` of price * quantity. -/
def sumNC (db : DB) (oid : Nat) : Int :=
  (db.orderItems.map (itemContribution oid)).sum

/-- The pricing invariant of the spec for one order: its stored total equals
the sum over its non-cancelled items of price * quantity. -/
def orderInvariant (db : DB) (oid : Nat) : Prop :=
  ∀ o ∈ db.orders, o.id = oid → o.total = sumNC db oid

instance (db : DB) (oid : Nat) : Decidable (orderInvariant db oid) := by
  unfold orderInvariant
  infer_instance

/-- Stored total of an order, when the order exists. -/
def totalOf (db : DB) (oid : Nat) : Option Int :=
  (db.orders.find? (fun o => o.id == oid)).map (fun o => o.total)

/-- Stored status of an order, when the order exists. -/
def statusOf (db : DB) (oid : Nat) : Option OrderStatus :=
  (db.orders.find? (fun o => o.id == oid)).map (fun o => o.status)

/-- Stored status of an order item, when it exists. -/
def itemStatusOf (db : DB) (iid : Nat) : Option OrderItemStatus :=
  (db.orderItems.find? (fun i => i.id == iid)).map (fun i => i.status)

/-- Stored sent_to_station_at of an order item, when it exists. -/
def sentAtOf (db : DB) (iid : Nat) : Option (Option Nat) :=
  (db.orderItems.find? (fun i => i.id == iid)).map (fun i => i.sentToStationAt)

/-- Sum of the price adjustments a line's modifier selections resolve to
(missing options contribute nothing; `create` fails on them anyway). -/
def modSum (db : DB) (mods : List OrderModifierRequest) : Int :=
  (mods.map (fun m => ((findModifierOption db m.optionId).map
      (fun o => o.priceAdjustment)).getD 0)).sum

/-- An order line whose insert cannot trip a CHECK constraint: positive
quantity and a non-negative resolved line price. -/
def lineOk (db : DB) (req : OrderItemRequest) : Prop :=
  0 < req.quantity ∧
    match findMenuItem db req.menuItemId with
    | some mi => 0 ≤ mi.price + modSum db req.modifiers
    | none => True

instance (db : DB) (req : OrderItemRequest) : Decidable (lineOk db req) := by
  unfold lineOk
  cases findMenuItem db req.menuItemId <;> dsimp only <;> infer_instance

/-- Outbound queue of one websocket client: the buffered `send` channel
(capacity 256 in `NewClient`, client.go:68).  `closed` records a
`close(client.send)`. -/
structure WQueue where
  msgs : List String
  cap : Nat
  closed : Bool
deriving DecidableEq, Repr

/-- State of the broadcast hub (internal/websockets/hub.go): the global client
set, the per-station client subsets, and each client's outbound queue (the
queue lives with the client object; it is kept here keyed by client id).
Clients are identified by `Nat`, stations by `String` as in the Go code. -/
structure HubState where
  clients : List Nat
  stationChannels : List (String × List Nat)
  queues : List (Nat × WQueue)
deriving DecidableEq, Repr

/-- Lookup of a client's queue in a queue table. -/
def qlookup (qs : List (Nat × WQueue)) (c : Nat) : Option WQueue :=
  (qs.find? (fun q => q.1 == c)).map (fun q => q.2)

/-- Queue of a client, when the client object exists. -/
def findQueue (h : HubState) (c : Nat) : Option WQueue :=
  qlookup h.queues c

/-- A non-blocking send attempt succeeds when the buffered channel has room
(`select { case client.send <- message: default: ... }`).  A send on a closed
queue is also routed to the failure branch: in the states the theorems below
consider, a closed queue never receives a send attempt. -/
def canSend (q : WQueue) : Bool :=
  !q.closed && q.msgs.length < q.cap

/-- Update of one client's queue. -/
def mapQueue (qs : List (Nat × WQueue)) (c : Nat) (f : WQueue → WQueue) :
    List (Nat × WQueue) :=
  qs.map (fun q => if q.1 == c then (q.1, f q.2) else q)

/-- Enqueue of one message. -/
def enqueue (q : WQueue) (m : String) : WQueue := { q with msgs := q.msgs ++ [m] }

/-- close(client.send). -/
def closeQueue (q : WQueue) : WQueue := { q with closed := true }

/-- Members of one station's subset. -/
def stationMembers (h : HubState) (sid : String) : List Nat :=
  ((h.stationChannels.find? (fun p => p.1 == sid)).map (fun p => p.2)).getD []

/-- Removal of a client from one station's subset. -/
def removeFromStation (chans : List (String × List Nat)) (sid : String) (c : Nat) :
    List (String × List Nat) :=
  chans.map (fun p => if p.1 == sid then (p.1, p.2.filter (fun x => !(x == c))) else p)

/-- `Hub.RegisterStationClient` (hub.go:31-39): add the client to the
subset of `sid`, creating the subset if absent (set semantics of the Go map). -/
def registerStationClient (h : HubState) (c : Nat) (sid : String) : HubState :=
  if h.stationChannels.any (fun p => p.1 == sid) then
    { h with stationChannels := h.stationChannels.map (fun p =>
        if p.1 == sid then (p.1, if p.2.contains c then p.2 else p.2 ++ [c]) else p) }
  else { h with stationChannels := h.stationChannels ++ [(sid, [c])] }

/-- Delivery loop of `Hub.BroadcastToStation` (hub.go:45-55) over the member
list of station `sid`: enqueue when the client's queue has room, otherwise
close the queue and delete the client from this station's subset and from the
global set. -/
def btsLoop (sid : String) (m : String) : HubState → List Nat → HubState
  | h, [] => h
  | h, c :: cs =>
    match findQueue h c with
    | none => btsLoop sid m h cs
    | some q =>
      if canSend q then
        btsLoop sid m { h with queues := mapQueue h.queues c (fun x => enqueue x m) } cs
      else
        btsLoop sid m
          { h with clients := h.clients.filter (fun x => !(x == c)),
                   stationChannels := removeFromStation h.stationChannels sid c,
                   queues := mapQueue h.queues c closeQueue } cs

/-- `Hub.BroadcastToStation` (hub.go:41-56). -/
def broadcastToStation (h : HubState) (sid : String) (m : String) : HubState :=
  match h.stationChannels.find? (fun p => p.1 == sid) with
  | none => h
  | some p => btsLoop sid m h p.2

/-- Delivery loop of the `case message := <-h.broadcast` branch of `Hub.Run`
(hub.go:74-82) over the global client set: enqueue when there is room,
otherwise close the queue and delete the client from the global set ONLY (the
station subsets are not touched on this path). -/
def runBroadcastLoop (m : String) : HubState → List Nat → HubState
  | h, [] => h
  | h, c :: cs =>
    match findQueue h c with
    | none => runBroadcastLoop m h cs
    | some q =>
      if canSend q then
        runBroadcastLoop m { h with queues := mapQueue h.queues c (fun x => enqueue x m) } cs
      else
        runBroadcastLoop m
          { h with clients := h.clients.filter (fun x => !(x == c)),
                   queues := mapQueue h.queues c closeQueue } cs

/-- One `BroadcastAll`: the broadcast branch of `Hub.Run`, iterating over the
registered clients. -/
def runBroadcast (h : HubState) (m : String) : HubState :=
  runBroadcastLoop m h h.clients

/-- The `case client := <-h.unregister` branch of `Hub.Run` (hub.go:63-73):
remove the client from the global set, close its queue, and purge it from
every station subset. -/
def runUnregister (h : HubState) (c : Nat) : HubState :=
  if h.clients.contains c then
    { h with clients := h.clients.filter (fun x => !(x == c)),
             stationChannels := h.stationChannels.map (fun p =>
               (p.1, p.2.filter (fun x => !(x == c)))),
             queues := mapQueue h.queues c closeQueue }
  else h

/-- Sample catalog and one in-progress order: order 1 (total 10) with the
single pending item 2 (price 10, quantity 1) routed to station 5, whose
printer is 7. -/
def sampleItem : OrderItem :=
  { id := 2, orderId := 1, menuItemId := 100, stationId := 5, quantity := 1, price := 10,
    status := .pending, specialInstructions := none, sentToStationAt := none,
    completedAt := none, name := "Pizza" }

/-- The order row of the sample state. -/
def sampleOrder : Order :=
  { id := 1, userId := 9, orderNumber := "20260101-ab01", status := .inProgress,
    total := 10, completedAt := none }

/-- The sample database. -/
def sampleDB : DB :=
  { menuItems := [{ id := 100, name := "Pizza", price := 10 }],
    routingRules := [{ id := 50, menuItemId := 100, stationId := 5, priority := 1 }],
    modifierOptions := [],
    stations := [{ id := 5, printerId := some 7 }],
    orders := [sampleOrder],
    orderItems := [sampleItem],
    orderItemModifiers := [],
    nextId := 200 }

example : orderInvariant sampleDB 1 := by decide

example : totalOf (runVoid sampleDB 2 "spill") 1 = some 0 := by decide

/-- C1 counterexample: in the sample state the pricing invariant holds; after
the mutation `UpdateItemStatus(item 2, Cancelled)` - which succeeds - the
order's stored total is still 10 while the sum over non-cancelled items is 0,
so the invariant the claim asserts after every mutation is false. -/
theorem c1_invariant_broken_by_cancel_status :
    orderInvariant sampleDB 1 ∧
    (updateItemStatus sampleDB 2 .cancelled 3 none).2 = none ∧
    ¬ orderInvariant (updateItemStatus sampleDB 2 .cancelled 3 none).1 1 := by
  decide

/-- C3: evaluating `VoidItem` twice on the same item of the sample state.  The
first void brings the total from 10 to 0; the second void is accepted (not
rejected, not a no-op) and decrements the total again, to -10. -/
theorem c3_double_void_decrements_twice :
    totalOf (runVoid sampleDB 2 "a") 1 = some 0 ∧
    itemStatusOf (runVoid sampleDB 2 "a") 2 = some .cancelled ∧
    (voidItem (runVoid sampleDB 2 "a") 2 "b").isOk = true ∧
    totalOf (runVoid (runVoid sampleDB 2 "a") 2 "b") 1 = some (-10) := by
  decide

/-- State with order 1 in progress owning a pending item 2 and an already
cancelled item 3. -/
def dbTwoItems : DB :=
  { sampleDB with
    orderItems := [sampleItem,
      { id := 3, orderId := 1, menuItemId := 100, stationId := 5, quantity := 1, price := 10,
        status := .cancelled, specialInstructions := none, sentToStationAt := none,
        completedAt := none, name := "Pizza" }] }

/-- C2 counterexample: after `UpdateItemStatus(item 2, Completed)` every
non-cancelled item of order 1 is Completed (item 3 is Cancelled), yet the
order is not cascaded to Completed - the code counts the cancelled item as
not-completed, so cancelled items are NOT excluded from the check. -/
theorem c2_cancelled_items_block_cascade :
    (updateItemStatus dbTwoItems 2 .completed 4 none).2 = none ∧
    (∀ i ∈ (updateItemStatus dbTwoItems 2 .completed 4 none).1.orderItems,
        i.orderId = 1 → i.status ≠ .cancelled → i.status = .completed) ∧
    statusOf (updateItemStatus dbTwoItems 2 .completed 4 none).1 1 ≠ some .completed := by
  decide

/-- C4 counterexample: `UpdateItemStatus(item 2, Completed)` with a storage
failure at its second statement (the cascade's SELECT) reports an error, yet
the already-committed first statement remains visible: the item is Completed
while the order was never cascaded.  The operation is not atomic. -/
theorem c4_partial_effect_visible :
    (updateItemStatus sampleDB 2 .completed 4 (some 1)).2 = some .persistence ∧
    itemStatusOf (updateItemStatus sampleDB 2 .completed 4 (some 1)).1 2 = some .completed ∧
    statusOf (updateItemStatus sampleDB 2 .completed 4 (some 1)).1 1 = some .inProgress := by
  decide

/-- C5 counterexample: processing the sample order when the ticket print for
station 5's printer fails: `processNewOrder` returns the error and item 2 of
the failed group is never transitioned to InProgress - fulfillment does not
continue. -/
theorem c5_print_failure_aborts_transitions :
    (processNewOrder (fun _ => false) sampleDB 1 [sampleItem] 4).2 = some .persistence ∧
    itemStatusOf (processNewOrder (fun _ => false) sampleDB 1 [sampleItem] 4).1 2 =
      some .pending := by
  decide

/-- C10 counterexample: creating an order from an empty line set does not fail
with a validation error - it succeeds and persists an order (id 200, the next
id of the sample state) with no items and total 0. -/
theorem c10_empty_line_set_accepted :
    (create sampleDB 9 "20260101-ff00" .new []).isOk = true ∧
    totalOf (runCreate sampleDB 9 "20260101-ff00" .new []) 200 = some 0 ∧
    ((runCreate sampleDB 9 "20260101-ff00" .new []).orderItems.filter
        (fun i => i.orderId == 200)) = [] := by
  decide

/-- Hub state with one client (id 1) registered globally and for stations "A"
and "B", whose outbound queue has no room. -/
def hubFullClient : HubState :=
  { clients := [1],
    stationChannels := [("A", [1]), ("B", [1])],
    queues := [(1, { msgs := [], cap := 0, closed := false })] }

/-- C8 counterexample: a station broadcast to "A" finds client 1's queue full
and removes it from the global set and from station "A", but the client is
still a member of station "B" - it is not removed from every per-station
subset as the claim states. -/
theorem c8_station_subsets_not_purged :
    (broadcastToStation hubFullClient "A" "m").clients = [] ∧
    stationMembers (broadcastToStation hubFullClient "A" "m") "A" = [] ∧
    stationMembers (broadcastToStation hubFullClient "A" "m") "B" = [1] := by
  decide

theorem bool_false_of_not_true {b : Bool} (h : ¬ b = true) : b = false := by
  cases hb : b
  · rfl
  · exact absurd hb h

theorem sum_map_congr {α : Type} (l : List α) (f g : α → Int)
    (h : ∀ x ∈ l, f x = g x) : (l.map f).sum = (l.map g).sum := by
  induction l with
  | nil => rfl
  | cons a t ih =>
    simp only [List.map_cons, List.sum_cons]
    rw [h a (List.mem_cons_self a t), ih (fun x hx => h x (List.mem_cons_of_mem a hx))]

theorem sum_map_update_unique {α : Type} (l : List α) (p : α → Bool) (x : α)
    (f g : α → Int) (hcount : l.countP p = 1) (hx : x ∈ l) (hpx : p x = true)
    (hsame : ∀ y, p y = false → g y = f y) :
    (l.map g).sum = (l.map f).sum + (g x - f x) := by
  induction l with
  | nil => cases hx
  | cons a t ih =>
    by_cases hpa : p a = true
    · have ht : t.countP p = 0 := by
        rw [List.countP_cons, if_pos hpa] at hcount
        omega
      have hax : x = a := by
        rcases List.mem_cons.mp hx with h | h
        · exact h
        · exact absurd hpx ((List.countP_eq_zero.mp ht) x h)
      subst hax
      have htail : (t.map g).sum = (t.map f).sum :=
        sum_map_congr t g f
          (fun y hy => hsame y (bool_false_of_not_true ((List.countP_eq_zero.mp ht) y hy)))
      simp only [List.map_cons, List.sum_cons]
      rw [htail]
      omega
    · have hpa' : p a = false := bool_false_of_not_true hpa
      have hxt : x ∈ t := by
        rcases List.mem_cons.mp hx with h | h
        · subst h; exact absurd hpx hpa
        · exact h
      have ht : t.countP p = 1 := by
        rw [List.countP_cons, if_neg hpa] at hcount
        omega
      simp only [List.map_cons, List.sum_cons]
      rw [hsame a hpa', ih ht hxt]
      omega

theorem find?_of_countP_one {α : Type} (l : List α) (p : α → Bool) (x : α)
    (hcount : l.countP p = 1) (hx : x ∈ l) (hpx : p x = true) :
    l.find? p = some x := by
  induction l with
  | nil => cases hx
  | cons a t ih =>
    by_cases hpa : p a = true
    · have ht : t.countP p = 0 := by
        rw [List.countP_cons, if_pos hpa] at hcount
        omega
      have hax : x = a := by
        rcases List.mem_cons.mp hx with h | h
        · exact h
        · exact absurd hpx ((List.countP_eq_zero.mp ht) x h)
      subst hax
      exact List.find?_cons_of_pos _ hpa
    · have hxt : x ∈ t := by
        rcases List.mem_cons.mp hx with h | h
        · subst h; exact absurd hpx hpa
        · exact h
      have ht : t.countP p = 1 := by
        rw [List.countP_cons, if_neg hpa] at hcount
        omega
      rw [List.find?_cons_of_neg _ hpa]
      exact ih ht hxt

theorem countP_map_pres {α : Type} (l : List α) (f : α → α) (p : α → Bool)
    (h : ∀ x, p (f x) = p x) : (l.map f).countP p = l.countP p := by
  induction l with
  | nil => rfl
  | cons a t ih =>
    simp only [List.map_cons, List.countP_cons, h, ih]

theorem find?_map_pres {α : Type} (l : List α) (f : α → α) (p : α → Bool)
    (h : ∀ x, p (f x) = p x) : (l.map f).find? p = (l.find? p).map f := by
  induction l with
  | nil => rfl
  | cons a t ih =>
    by_cases hpa : p a = true
    · rw [List.map_cons, List.find?_cons_of_pos _ (by rw [h]; exact hpa),
          List.find?_cons_of_pos _ hpa]
      rfl
    · rw [List.map_cons, List.find?_cons_of_neg _ (by rw [h]; exact hpa),
          List.find?_cons_of_neg _ hpa, ih]

@[simp] theorem applyItemStatus_id (i : OrderItem) (st : OrderItemStatus) (now : Nat) :
    (applyItemStatus i st now).id = i.id := by
  unfold applyItemStatus
  split
  · rfl
  · split <;> rfl

@[simp] theorem applyItemStatus_orderId (i : OrderItem) (st : OrderItemStatus) (now : Nat) :
    (applyItemStatus i st now).orderId = i.orderId := by
  unfold applyItemStatus
  split
  · rfl
  · split <;> rfl

@[simp] theorem applyItemStatus_price (i : OrderItem) (st : OrderItemStatus) (now : Nat) :
    (applyItemStatus i st now).price = i.price := by
  unfold applyItemStatus
  split
  · rfl
  · split <;> rfl

@[simp] theorem applyItemStatus_quantity (i : OrderItem) (st : OrderItemStatus) (now : Nat) :
    (applyItemStatus i st now).quantity = i.quantity := by
  unfold applyItemStatus
  split
  · rfl
  · split <;> rfl

@[simp] theorem applyItemStatus_status (i : OrderItem) (st : OrderItemStatus) (now : Nat) :
    (applyItemStatus i st now).status = st := by
  unfold applyItemStatus
  split
  · rfl
  · split <;> rfl

@[simp] theorem applyOrderStatus_id (o : Order) (st : OrderStatus) (now : Nat) :
    (applyOrderStatus o st now).id = o.id := by
  unfold applyOrderStatus
  split <;> rfl

@[simp] theorem applyOrderStatus_total (o : Order) (st : OrderStatus) (now : Nat) :
    (applyOrderStatus o st now).total = o.total := by
  unfold applyOrderStatus
  split <;> rfl

@[simp] theorem applyOrderStatus_status (o : Order) (st : OrderStatus) (now : Nat) :
    (applyOrderStatus o st now).status = st := by
  unfold applyOrderStatus
  split <;> rfl

@[simp] theorem applyVoid_id (i : OrderItem) (reason : String) :
    (applyVoid i reason).id = i.id := rfl

@[simp] theorem applyVoid_orderId (i : OrderItem) (reason : String) :
    (applyVoid i reason).orderId = i.orderId := rfl

@[simp] theorem applyVoid_price (i : OrderItem) (reason : String) :
    (applyVoid i reason).price = i.price := rfl

@[simp] theorem applyVoid_quantity (i : OrderItem) (reason : String) :
    (applyVoid i reason).quantity = i.quantity := rfl

@[simp] theorem applyVoid_status (i : OrderItem) (reason : String) :
    (applyVoid i reason).status = .cancelled := rfl

theorem qlookup_mapQueue_ne (qs : List (Nat × WQueue)) (c' : Nat) (f : WQueue → WQueue)
    (c : Nat) (h : c ≠ c') : qlookup (mapQueue qs c' f) c = qlookup qs c := by
  induction qs with
  | nil => rfl
  | cons a t ih =>
    show qlookup ((if a.1 == c' then (a.1, f a.2) else a) :: mapQueue t c' f) c = _
    by_cases hk : a.1 = c'
    · have hac : ¬ a.1 = c := by
        rw [hk]
        exact fun e => h e.symm
      unfold qlookup
      rw [if_pos (by simpa using hk)]
      rw [List.find?_cons_of_neg _ (by simpa using hac),
          List.find?_cons_of_neg _ (by simpa using hac)]
      exact ih
    · by_cases hac : a.1 = c
      · unfold qlookup
        rw [if_neg (by simpa using hk)]
        rw [List.find?_cons_of_pos _ (by simpa using hac),
            List.find?_cons_of_pos _ (by simpa using hac)]
      · unfold qlookup
        rw [if_neg (by simpa using hk)]
        rw [List.find?_cons_of_neg _ (by simpa using hac),
            List.find?_cons_of_neg _ (by simpa using hac)]
        exact ih

theorem qlookup_mapQueue_self (qs : List (Nat × WQueue)) (c : Nat) (f : WQueue → WQueue) :
    qlookup (mapQueue qs c f) c = (qlookup qs c).map f := by
  induction qs with
  | nil => rfl
  | cons a t ih =>
    show qlookup ((if a.1 == c then (a.1, f a.2) else a) :: mapQueue t c f) c = _
    by_cases hac : a.1 = c
    · unfold qlookup
      rw [if_pos (by simpa using hac)]
      rw [List.find?_cons_of_pos _ (by simpa using hac),
          List.find?_cons_of_pos _ (by simpa using hac)]
      rfl
    · unfold qlookup
      rw [if_neg (by simpa using hac)]
      rw [List.find?_cons_of_neg _ (by simpa using hac),
          List.find?_cons_of_neg _ (by simpa using hac)]
      exact ih

theorem btsLoop_findQueue_not_mem (sid : String) (m : String) (c : Nat) :
    ∀ (cs : List Nat) (h : HubState), c ∉ cs →
      findQueue (btsLoop sid m h cs) c = findQueue h c := by
  intro cs
  induction cs with
  | nil => intro h _; rfl
  | cons c' t ih =>
    intro h hn
    have hcc' : c ≠ c' := fun e => hn (e ▸ List.mem_cons_self c' t)
    have hnt : c ∉ t := fun e => hn (List.mem_cons_of_mem c' e)
    show findQueue (match findQueue h c' with
      | none => btsLoop sid m h t
      | some q =>
        if canSend q then
          btsLoop sid m { h with queues := mapQueue h.queues c' (fun x => enqueue x m) } t
        else
          btsLoop sid m
            { h with clients := h.clients.filter (fun x => !(x == c')),
                     stationChannels := removeFromStation h.stationChannels sid c',
                     queues := mapQueue h.queues c' closeQueue } t) c = findQueue h c
    cases hq : findQueue h c' with
    | none => exact ih h hnt
    | some q =>
      dsimp only
      by_cases hs : canSend q = true
      · rw [if_pos hs, ih _ hnt]
        show qlookup (mapQueue h.queues c' (fun x => enqueue x m)) c = _
        exact qlookup_mapQueue_ne _ _ _ _ hcc'
      · rw [if_neg hs, ih _ hnt]
        show qlookup (mapQueue h.queues c' closeQueue) c = _
        exact qlookup_mapQueue_ne _ _ _ _ hcc'

theorem runBroadcastLoop_findQueue_not_mem (m : String) (c : Nat) :
    ∀ (cs : List Nat) (h : HubState), c ∉ cs →
      findQueue (runBroadcastLoop m h cs) c = findQueue h c := by
  intro cs
  induction cs with
  | nil => intro h _; rfl
  | cons c' t ih =>
    intro h hn
    have hcc' : c ≠ c' := fun e => hn (e ▸ List.mem_cons_self c' t)
    have hnt : c ∉ t := fun e => hn (List.mem_cons_of_mem c' e)
    show findQueue (match findQueue h c' with
      | none => runBroadcastLoop m h t
      | some q =>
        if canSend q then
          runBroadcastLoop m { h with queues := mapQueue h.queues c' (fun x => enqueue x m) } t
        else
          runBroadcastLoop m
            { h with clients := h.clients.filter (fun x => !(x == c')),
                     queues := mapQueue h.queues c' closeQueue } t) c = findQueue h c
    cases hq : findQueue h c' with
    | none => exact ih h hnt
    | some q =>
      dsimp only
      by_cases hs : canSend q = true
      · rw [if_pos hs, ih _ hnt]
        show qlookup (mapQueue h.queues c' (fun x => enqueue x m)) c = _
        exact qlookup_mapQueue_ne _ _ _ _ hcc'
      · rw [if_neg hs, ih _ hnt]
        show qlookup (mapQueue h.queues c' closeQueue) c = _
        exact qlookup_mapQueue_ne _ _ _ _ hcc'

theorem runBroadcastLoop_stationChannels (m : String) :
    ∀ (cs : List Nat) (h : HubState),
      (runBroadcastLoop m h cs).stationChannels = h.stationChannels := by
  intro cs
  induction cs with
  | nil => intro h; rfl
  | cons c' t ih =>
    intro h
    show (match findQueue h c' with
      | none => runBroadcastLoop m h t
      | some q =>
        if canSend q then
          runBroadcastLoop m { h with queues := mapQueue h.queues c' (fun x => enqueue x m) } t
        else
          runBroadcastLoop m
            { h with clients := h.clients.filter (fun x => !(x == c')),
                     queues := mapQueue h.queues c' closeQueue } t).stationChannels
      = h.stationChannels
    cases hq : findQueue h c' with
    | none => exact ih h
    | some q =>
      dsimp only
      by_cases hs : canSend q = true
      · rw [if_pos hs, ih _]
      · rw [if_neg hs, ih _]

/-- Keys survive the per-station removal map. -/
theorem removeFromStation_key (sid : String) (c : Nat) (x : String × List Nat) :
    ((if x.1 == sid then (x.1, x.2.filter (fun y => !(y == c))) else x).1 == sid)
      = (x.1 == sid) := by
  split <;> rfl

/-- C9: `BroadcastToStation(S, payload)` delivers only to clients registered
for station S - the outbound queue of any client that is not a member of S's
subset is left exactly as it was, so clients registered solely for another
station, and unregistered clients, receive nothing. -/
theorem c9_station_broadcast_only_members (h : HubState) (sid : String) (m : String)
    (c : Nat) (hnm : c ∉ stationMembers h sid) :
    findQueue (broadcastToStation h sid m) c = findQueue h c := by
  unfold broadcastToStation
  cases hf : h.stationChannels.find? (fun p => p.1 == sid) with
  | none => rfl
  | some p =>
    dsimp only
    have hmem : stationMembers h sid = p.2 := by
      unfold stationMembers
      rw [hf]
      rfl
    exact btsLoop_findQueue_not_mem sid m c p.2 h (hmem ▸ hnm)

/-- Hub state with clients 1 and 2, client 1 registered for station "A" and
client 2 for station "B", both queues with room. -/
def hubTwoClients : HubState :=
  { clients := [1, 2],
    stationChannels := [("A", [1]), ("B", [2])],
    queues := [(1, { msgs := [], cap := 4, closed := false }),
               (2, { msgs := [], cap := 4, closed := false })] }

/-- C9 witness: broadcasting to station "A" leaves the queue of client 2,
registered only for station "B", untouched. -/
theorem c9_witness :
    findQueue (broadcastToStation hubTwoClients "A" "x") 2 = findQueue hubTwoClients 2 :=
  c9_station_broadcast_only_members hubTwoClients "A" "x" 2 (by decide)

/-- C8 amended: when delivery finds a client's outbound queue full, the client
is removed from the global set and its queue is closed without blocking the
sender, and a subsequent `BroadcastAll` neither blocks nor delivers to it; on
the station path the client is also removed from THAT station's subset, but
the code does not purge it from other stations' subsets, and the global
broadcast path never touches the per-station subsets at all. -/
theorem c8_amended :
    (∀ (h : HubState) (m : String),
        (runBroadcast h m).stationChannels = h.stationChannels)
    ∧ (∀ (h : HubState) (sid : String) (m : String) (c : Nat) (q : WQueue),
        stationMembers h sid = [c] → findQueue h c = some q → canSend q = false →
        (broadcastToStation h sid m).clients = h.clients.filter (fun x => !(x == c)) ∧
        stationMembers (broadcastToStation h sid m) sid = [] ∧
        findQueue (broadcastToStation h sid m) c = some (closeQueue q))
    ∧ (∀ (h : HubState) (m : String) (c : Nat), c ∉ h.clients →
        findQueue (runBroadcast h m) c = findQueue h c) := by
  refine ⟨?_, ?_, ?_⟩
  · intro h m
    exact runBroadcastLoop_stationChannels m h.clients h
  · intro h sid m c q hm hq hcs
    cases hf : h.stationChannels.find? (fun p => p.1 == sid) with
    | none =>
      exfalso
      unfold stationMembers at hm
      rw [hf] at hm
      exact absurd hm (by simp)
    | some p =>
      have hp2 : p.2 = [c] := by
        unfold stationMembers at hm
        rw [hf] at hm
        exact hm
      have hp1 : p.1 = sid := by
        have := List.find?_some hf
        simpa using this
      have hloop : broadcastToStation h sid m
          = { h with clients := h.clients.filter (fun x => !(x == c)),
                     stationChannels := removeFromStation h.stationChannels sid c,
                     queues := mapQueue h.queues c closeQueue } := by
        unfold broadcastToStation
        rw [hf]
        dsimp only
        rw [hp2]
        show (match findQueue h c with
          | none => btsLoop sid m h []
          | some q =>
            if canSend q then
              btsLoop sid m { h with queues := mapQueue h.queues c (fun x => enqueue x m) } []
            else
              btsLoop sid m
                { h with clients := h.clients.filter (fun x => !(x == c)),
                         stationChannels := removeFromStation h.stationChannels sid c,
                         queues := mapQueue h.queues c closeQueue } []) = _
        rw [hq]
        dsimp only
        rw [if_neg (by rw [hcs]; exact Bool.false_ne_true)]
        rfl
      refine ⟨by rw [hloop], ?_, ?_⟩
      · rw [hloop]
        show stationMembers { h with clients := _, stationChannels := _, queues := _ } sid = []
        unfold stationMembers removeFromStation
        have hfind : (h.stationChannels.map (fun x =>
            if x.1 == sid then (x.1, x.2.filter (fun y => !(y == c))) else x)).find?
              (fun p => p.1 == sid)
            = (h.stationChannels.find? (fun p => p.1 == sid)).map (fun x =>
                if x.1 == sid then (x.1, x.2.filter (fun y => !(y == c))) else x) :=
          find?_map_pres _ _ _ (removeFromStation_key sid c)
        dsimp only at hfind ⊢
        rw [hfind, hf]
        simp [hp1, hp2]
      · rw [hloop]
        show qlookup (mapQueue h.queues c closeQueue) c = some (closeQueue q)
        rw [qlookup_mapQueue_self]
        have : qlookup h.queues c = some q := hq
        rw [this]
        rfl
  · intro h m c hc
    exact runBroadcastLoop_findQueue_not_mem m c h.clients h hc

/-- C8 witness: instantiating the amended theorem at `hubFullClient` (client 1
registered for "A" and "B", full queue): a station broadcast to "A" removes
client 1 from the global set and from "A", closes its queue, and a subsequent
global broadcast to a hub without client 1 leaves its queue untouched. -/
theorem c8_witness :
    (broadcastToStation hubFullClient "A" "m").clients = [] ∧
    stationMembers (broadcastToStation hubFullClient "A" "m") "A" = [] ∧
    findQueue (broadcastToStation hubFullClient "A" "m") 1
      = some { msgs := [], cap := 0, closed := true } ∧
    findQueue (runBroadcast (broadcastToStation hubFullClient "A" "m") "m2") 1
      = findQueue (broadcastToStation hubFullClient "A" "m") 1 := by
  have h2 := c8_amended.2.1 hubFullClient "A" "m" 1
      { msgs := [], cap := 0, closed := false } (by decide) (by decide) (by decide)
  have h3 := c8_amended.2.2 (broadcastToStation hubFullClient "A" "m") "m2" 1
      (by decide)
  exact ⟨by simpa using h2.1, h2.2.1, h2.2.2, h3⟩

/-- Stamp behaviour of the item UPDATE for the in_progress transition. -/
theorem applyItemStatus_inProgress_sent (i : OrderItem) (now : Nat) :
    (applyItemStatus i .inProgress now).sentToStationAt
      = match i.sentToStationAt with
        | none => some now
        | some t => some t := by
  unfold applyItemStatus
  rw [if_neg (by decide), if_pos rfl]

/-- C7: `sent_to_station_at` is written at most once.  If every row of the
item already carries `some t`, a further `UpdateItemStatus(item, InProgress)`
leaves it at `some t`; if it is still NULL, the first such transition stamps
it with the current time. -/
theorem c7_sent_at_stamped_once (db : DB) (itemId now t : Nat) :
    ((∀ i ∈ db.orderItems, i.id = itemId → i.sentToStationAt = some t) →
      ∀ j ∈ (updateItemStatus db itemId .inProgress now none).1.orderItems,
        j.id = itemId → j.sentToStationAt = some t)
    ∧ ((∀ i ∈ db.orderItems, i.id = itemId → i.sentToStationAt = none) →
      ∀ j ∈ (updateItemStatus db itemId .inProgress now none).1.orderItems,
        j.id = itemId → j.sentToStationAt = some now) := by
  unfold updateItemStatus
  rw [if_neg (by simp)]
  by_cases hany : db.orderItems.any (fun i => i.id == itemId) = true
  · rw [if_pos hany, if_neg (by decide)]
    constructor
    · intro hyp j hj hjid
      rcases List.mem_map.mp hj with ⟨i, hi, hfi⟩
      by_cases hii : i.id = itemId
      · rw [← hfi, if_pos (by simpa using hii)]
        rw [applyItemStatus_inProgress_sent, hyp i hi hii]
      · exfalso
        rw [← hfi, if_neg (by simpa using hii)] at hjid
        exact hii hjid
    · intro hyp j hj hjid
      rcases List.mem_map.mp hj with ⟨i, hi, hfi⟩
      by_cases hii : i.id = itemId
      · rw [← hfi, if_pos (by simpa using hii)]
        rw [applyItemStatus_inProgress_sent, hyp i hi hii]
      · exfalso
        rw [← hfi, if_neg (by simpa using hii)] at hjid
        exact hii hjid
  · rw [if_neg hany]
    constructor
    · intro hyp j hj hjid
      exact hyp j hj hjid
    · intro _ j hj hjid
      exfalso
      rw [List.any_eq_true] at hany
      exact hany ⟨j, hj, by simpa using hjid⟩

/-- C7 witness: an item whose `sent_to_station_at` is already 3 keeps it
through another in_progress transition, and a NULL one is stamped with the
current time 9. -/
theorem c7_witness :
    (∀ j ∈ (updateItemStatus
        { sampleDB with orderItems := [{ sampleItem with sentToStationAt := some 3 }] }
        2 .inProgress 9 none).1.orderItems,
      j.id = 2 → j.sentToStationAt = some 3) ∧
    (∀ j ∈ (updateItemStatus sampleDB 2 .inProgress 9 none).1.orderItems,
      j.id = 2 → j.sentToStationAt = some 9) := by
  constructor
  · exact (c7_sent_at_stamped_once
      { sampleDB with orderItems := [{ sampleItem with sentToStationAt := some 3 }] }
      2 9 3).1 (by decide)
  · exact (c7_sent_at_stamped_once sampleDB 2 9 0).2 (by decide)

/-- C4 amended: `Create` and `VoidItem` are atomic - whenever they fail the
caller observes the untouched input state - but `UpdateItemStatus` is not: a
failure in its cascade sequence (here: the SELECT following the item UPDATE)
leaves the already-committed item-status update visible while the order row
is untouched. -/
theorem c4_amended :
    (∀ (db : DB) (uid : Nat) (onum : String) (st : OrderStatus)
        (reqs : List OrderItemRequest) (e : RepoError),
        create db uid onum st reqs = .error e → runCreate db uid onum st reqs = db)
    ∧ (∀ (db : DB) (itemId : Nat) (reason : String) (e : RepoError),
        voidItem db itemId reason = .error e → runVoid db itemId reason = db)
    ∧ (∀ (db : DB) (itemId now : Nat),
        db.orderItems.any (fun i => i.id == itemId) = true →
        (updateItemStatus db itemId .completed now (some 1)).2 = some .persistence ∧
        (updateItemStatus db itemId .completed now (some 1)).1.orderItems
          = db.orderItems.map
              (fun i => if i.id == itemId then applyItemStatus i .completed now else i) ∧
        (updateItemStatus db itemId .completed now (some 1)).1.orders = db.orders) := by
  refine ⟨?_, ?_, ?_⟩
  · intro db uid onum st reqs e h
    unfold runCreate
    rw [h]
  · intro db itemId reason e h
    unfold runVoid
    rw [h]
  · intro db itemId now hany
    unfold updateItemStatus
    rw [if_neg (by simp), if_pos hany, if_pos rfl, if_pos rfl]
    exact ⟨rfl, rfl, rfl⟩

/-- C4 witness: a creation with an unknown menu item rolls back to the input
state, a void of an unknown item rolls back, and the fault-injected
`UpdateItemStatus` on item 2 of the sample state exhibits its partial
effect. -/
theorem c4_witness :
    runCreate sampleDB 9 "20260101-ff00" .new
      [{ menuItemId := 999, quantity := 1, specialInstructions := none, modifiers := [] }]
      = sampleDB ∧
    runVoid sampleDB 999 "r" = sampleDB ∧
    (updateItemStatus sampleDB 2 .completed 4 (some 1)).2 = some .persistence := by
  refine ⟨?_, ?_, ?_⟩
  · exact c4_amended.1 sampleDB 9 "20260101-ff00" .new
      [{ menuItemId := 999, quantity := 1, specialInstructions := none, modifiers := [] }]
      .notFound (by rfl)
  · exact c4_amended.2.1 sampleDB 999 "r" .notFound (by rfl)
  · exact (c4_amended.2.2 sampleDB 2 4 (by decide)).1

/-- C5 amended: a ticket-print failure never fails order creation - the
service still returns the created order - but it does NOT let fulfillment
continue: `processNewOrder` returns at the first failing print, so no item of
the failed station group (nor of any later group) is transitioned to
InProgress; only the order-status update that precedes the loop has been
applied. -/
theorem c5_amended :
    (∀ (printOk : Nat → Bool) (db : DB) (uid : Nat) (onum : String)
        (reqs : List OrderItemRequest) (now : Nat) (db1 : DB) (o : Order)
        (items : List OrderItem),
        create db uid onum .new reqs = .ok (db1, o, items) →
        ∃ db2, serviceCreateOrder printOk db uid onum reqs now = .ok (db2, o))
    ∧ (∀ (printOk : Nat → Bool) (db : DB) (oid : Nat) (items : List OrderItem)
        (now : Nat) (sid : Nat) (its : List OrderItem)
        (rest : List (Nat × List OrderItem)) (st : Station) (p : Nat),
        groupByStation items = (sid, its) :: rest →
        db.stations.find? (fun s => s.id == sid) = some st →
        st.printerId = some p → printOk p = false →
        db.orders.any (fun o => o.id == oid) = true →
        (processNewOrder printOk db oid items now).2 = some .persistence ∧
        (processNewOrder printOk db oid items now).1.orderItems = db.orderItems) := by
  constructor
  · intro printOk db uid onum reqs now db1 o items hc
    unfold serviceCreateOrder
    rw [hc]
    exact ⟨_, rfl⟩
  · intro printOk db oid items now sid its rest st p hg hfs hpr hpo hany
    have hup : updateStatus db oid .inProgress now
        = ({ db with orders := db.orders.map (fun o =>
            if o.id == oid then applyOrderStatus o .inProgress now else o) }, none) := by
      unfold updateStatus
      rw [if_pos hany]
    have hrun : processNewOrder printOk db oid items now
        = ({ db with orders := db.orders.map (fun o =>
            if o.id == oid then applyOrderStatus o .inProgress now else o) },
           some .persistence) := by
      unfold processNewOrder
      rw [hup]
      show processGroups printOk now _ (groupByStation items) = _
      rw [hg]
      unfold processGroups
      rw [show ({ db with orders := db.orders.map (fun o =>
          if o.id == oid then applyOrderStatus o .inProgress now else o) } : DB).stations
          = db.stations from rfl, hfs]
      dsimp only
      rw [hpr]
      dsimp only
      rw [if_neg (by rw [hpo]; exact Bool.false_ne_true)]
    rw [hrun]
    exact ⟨rfl, rfl⟩

/-- Order row that creating from an empty line set over the sample state
produces. -/
def emptyOrder : Order :=
  { id := 200, userId := 9, orderNumber := "20260101-ff00", status := .new,
    total := 0, completedAt := none }

/-- C5 witness: the service returns the created order although processing was
given an always-failing printer, and `processNewOrder` over the sample order
whose only group prints on the failing printer 7 leaves every item row
untouched. -/
theorem c5_witness :
    (∃ db2, serviceCreateOrder (fun _ => false) sampleDB 9 "20260101-ff00" [] 4
      = .ok (db2, emptyOrder)) ∧
    (processNewOrder (fun _ => false) sampleDB 1 [sampleItem] 4).1.orderItems
      = sampleDB.orderItems := by
  constructor
  · exact c5_amended.1 (fun _ => false) sampleDB 9 "20260101-ff00" [] 4
      { sampleDB with orders := sampleDB.orders ++ [emptyOrder], nextId := 201 }
      emptyOrder [] (by rfl)
  · exact (c5_amended.2 (fun _ => false) sampleDB 1 [sampleItem] 4 5 [sampleItem] []
      { id := 5, printerId := some 7 } 7 (by rfl) (by rfl) rfl rfl (by rfl)).2

/-- The fold implementing ORDER BY priority ASC LIMIT 1 returns an element of
the candidate set with minimal priority. -/
theorem foldMin_spec (rs : List RoutingRule) :
    ∀ (r : RoutingRule),
      (rs.foldl (fun b x => if x.priority < b.priority then x else b) r = r ∨
        rs.foldl (fun b x => if x.priority < b.priority then x else b) r ∈ rs)
      ∧ (rs.foldl (fun b x => if x.priority < b.priority then x else b) r).priority
          ≤ r.priority
      ∧ ∀ x ∈ rs,
          (rs.foldl (fun b x => if x.priority < b.priority then x else b) r).priority
            ≤ x.priority := by
  induction rs with
  | nil =>
    intro r
    exact ⟨Or.inl rfl, le_refl _, by simp⟩
  | cons a t ih =>
    intro r
    rw [List.foldl_cons]
    by_cases hc : a.priority < r.priority
    · rw [if_pos hc]
      obtain ⟨hm, hl, ha⟩ := ih a
      refine ⟨?_, ?_, ?_⟩
      · rcases hm with hm | hm
        · exact Or.inr (by rw [hm]; exact List.mem_cons_self a t)
        · exact Or.inr (List.mem_cons_of_mem a hm)
      · exact le_trans hl (le_of_lt hc)
      · intro x hx
        rcases List.mem_cons.mp hx with hx | hx
        · exact hx ▸ hl
        · exact ha x hx
    · rw [if_neg hc]
      obtain ⟨hm, hl, ha⟩ := ih r
      refine ⟨?_, ?_, ?_⟩
      · rcases hm with hm | hm
        · exact Or.inl hm
        · exact Or.inr (List.mem_cons_of_mem a hm)
      · exact hl
      · intro x hx
        rcases List.mem_cons.mp hx with hx | hx
        · exact hx ▸ le_trans hl (not_lt.mp hc)
        · exact ha x hx

/-- The only error `buildModifiers` can produce is `notFound`. -/
theorem buildModifiers_error_notFound (db : DB) (itemId : Nat) :
    ∀ (mods : List OrderModifierRequest) (nid : Nat) (e : RepoError),
      buildModifiers db itemId nid mods = .error e → e = .notFound := by
  intro mods
  induction mods with
  | nil =>
    intro nid e h
    exact absurd h (by simp [buildModifiers])
  | cons m t ih =>
    intro nid e h
    unfold buildModifiers at h
    cases hm : findModifierOption db m.optionId with
    | none =>
      rw [hm] at h
      cases h
      rfl
    | some opt =>
      rw [hm] at h
      cases hb : buildModifiers db itemId (nid + 1) t with
      | error e' =>
        rw [hb] at h
        cases h
        exact ih (nid + 1) e hb
      | ok x =>
        rw [hb] at h
        obtain ⟨rest, adj, nid'⟩ := x
        cases h

/-- A successful `buildModifiers` accumulates exactly the sum of the selected
options' price adjustments. -/
theorem buildModifiers_ok_adj (db : DB) (itemId : Nat) :
    ∀ (mods : List OrderModifierRequest) (nid : Nat)
      (rest : List OrderItemModifier) (adj : Int) (nid' : Nat),
      buildModifiers db itemId nid mods = .ok (rest, adj, nid') →
      adj = modSum db mods := by
  intro mods
  induction mods with
  | nil =>
    intro nid rest adj nid' h
    unfold buildModifiers at h
    cases h
    rfl
  | cons m t ih =>
    intro nid rest adj nid' h
    unfold buildModifiers at h
    cases hm : findModifierOption db m.optionId with
    | none =>
      rw [hm] at h
      cases h
    | some opt =>
      rw [hm] at h
      cases hb : buildModifiers db itemId (nid + 1) t with
      | error e' =>
        rw [hb] at h
        cases h
      | ok x =>
        obtain ⟨rest0, adj0, nid0⟩ := x
        rw [hb] at h
        have hadj := ih (nid + 1) rest0 adj0 nid0 hb
        cases h
        unfold modSum at hadj
        unfold modSum
        rw [List.map_cons, List.sum_cons, hm, hadj]
        rfl

/-- When some request line references a menu item without any routing rule and
no line can trip a CHECK constraint, the per-line loop fails with `notFound`
(either at that line's routing lookup, or earlier at a menu-item or
modifier-option lookup - all of which are `sql.ErrNoRows`). -/
theorem createLines_error_notFound (db : DB) (oid : Nat) :
    ∀ (reqs : List OrderItemRequest) (nid : Nat),
      (∃ req ∈ reqs, rulesFor db req.menuItemId = []) →
      (∀ req ∈ reqs, lineOk db req) →
      createLines db oid nid reqs = .error .notFound := by
  intro reqs
  induction reqs with
  | nil =>
    intro nid hmiss _
    rcases hmiss with ⟨req, hmem, _⟩
    cases hmem
  | cons req t ih =>
    intro nid hmiss hok
    unfold createLines
    cases hm : findMenuItem db req.menuItemId with
    | none => rfl
    | some mi =>
      dsimp only
      cases hr : resolveStation db req.menuItemId with
      | none => rfl
      | some sid =>
        dsimp only
        have hhead : ¬ rulesFor db req.menuItemId = [] := by
          intro hE
          unfold resolveStation pickMinPriority at hr
          rw [hE] at hr
          cases hr
        have hmiss' : ∃ r ∈ t, rulesFor db r.menuItemId = [] := by
          rcases hmiss with ⟨r, hmemr, hre⟩
          rcases List.mem_cons.mp hmemr with h | h
          · exact absurd (h ▸ hre) hhead
          · exact ⟨r, h, hre⟩
        have hlok := hok req (List.mem_cons_self req t)
        have hqty : ¬ (req.quantity ≤ 0) := by
          have := hlok.1
          omega
        rw [if_neg hqty]
        cases hb : buildModifiers db nid (nid + 1) req.modifiers with
        | error e =>
          have := buildModifiers_error_notFound db nid req.modifiers (nid + 1) e hb
          rw [this]
        | ok x =>
          obtain ⟨mods, adj, nid2⟩ := x
          dsimp only
          have hadj : adj = modSum db req.modifiers :=
            buildModifiers_ok_adj db nid req.modifiers (nid + 1) mods adj nid2 hb
          have hprice : ¬ (mi.price + adj < 0) := by
            have h2 := hlok.2
            rw [hm] at h2
            rw [hadj]
            omega
          rw [if_neg hprice, ih nid2 hmiss' (fun r hr2 => hok r (List.mem_cons_of_mem req hr2))]

/-- C6: station resolution picks a routing rule of minimal priority value for
the menu item, and creating an order in which some line's menu item has no
routing rule fails with `notFound` while the state the caller observes is the
unchanged input (no order is created).  `hok` rules out the unrelated CHECK
constraint failures (non-positive quantity, negative line price), which would
otherwise fail the creation earlier with a different error. -/
theorem c6_lowest_priority_and_notFound (db : DB) (mid : Nat) (uid : Nat) (onum : String)
    (st : OrderStatus) (reqs : List OrderItemRequest)
    (hmiss : ∃ req ∈ reqs, rulesFor db req.menuItemId = [])
    (hok : ∀ req ∈ reqs, lineOk db req) :
    (∀ sid, resolveStation db mid = some sid →
      ∃ rr ∈ rulesFor db mid, rr.stationId = sid ∧
        ∀ r' ∈ rulesFor db mid, rr.priority ≤ r'.priority)
    ∧ create db uid onum st reqs = .error .notFound
    ∧ runCreate db uid onum st reqs = db := by
  have hcl : createLines db db.nextId (db.nextId + 1) reqs = .error .notFound :=
    createLines_error_notFound db db.nextId reqs (db.nextId + 1) hmiss hok
  have hcreate : create db uid onum st reqs = .error .notFound := by
    unfold create
    dsimp only
    rw [hcl]
  refine ⟨?_, hcreate, ?_⟩
  · intro sid hres
    unfold resolveStation pickMinPriority at hres
    cases hrules : rulesFor db mid with
    | nil =>
      rw [hrules] at hres
      cases hres
    | cons r rs =>
      rw [hrules] at hres
      dsimp only [Option.map] at hres
      obtain ⟨hm, hl, ha⟩ := foldMin_spec rs r
      refine ⟨rs.foldl (fun b x => if x.priority < b.priority then x else b) r, ?_, ?_, ?_⟩
      · rcases hm with hm | hm
        · rw [hm]
          exact List.mem_cons_self r rs
        · exact List.mem_cons_of_mem r hm
      · exact Option.some.inj hres
      · intro r' hr'
        rcases List.mem_cons.mp hr' with h | h
        · exact h ▸ hl
        · exact ha r' h
  · unfold runCreate
    rw [hcreate]

/-- Catalog with three routing rules of priorities 3, 1, 2 for menu item 100
(stations 31, 11, 21) and a menu item 101 with no routing rule. -/
def dbRouting : DB :=
  { menuItems := [{ id := 100, name := "Pizza", price := 10 },
                  { id := 101, name := "Salad", price := 5 }],
    routingRules := [{ id := 51, menuItemId := 100, stationId := 31, priority := 3 },
                     { id := 52, menuItemId := 100, stationId := 11, priority := 1 },
                     { id := 53, menuItemId := 100, stationId := 21, priority := 2 }],
    modifierOptions := [],
    stations := [],
    orders := [],
    orderItems := [],
    orderItemModifiers := [],
    nextId := 1 }

/-- C6 witness: among priorities {3, 1, 2} resolution picks the priority-1
station 11, and creating an order whose line names menu item 101 (no rule)
fails with `notFound`, leaving the database unchanged. -/
theorem c6_witness :
    (∃ rr ∈ rulesFor dbRouting 100, rr.stationId = 11 ∧
      ∀ r' ∈ rulesFor dbRouting 100, rr.priority ≤ r'.priority) ∧
    create dbRouting 9 "20260101-ff00" .new
      [{ menuItemId := 101, quantity := 1, specialInstructions := none, modifiers := [] }]
      = .error .notFound := by
  have h := c6_lowest_priority_and_notFound dbRouting 100 9 "20260101-ff00" .new
    [{ menuItemId := 101, quantity := 1, specialInstructions := none, modifiers := [] }]
    ⟨{ menuItemId := 101, quantity := 1, specialInstructions := none, modifiers := [] },
      List.mem_cons_self _ _, by rfl⟩
    (by
      intro req hreq
      rcases List.mem_cons.mp hreq with h | h
      · rw [h]
        exact ⟨by decide, by rw [show findMenuItem dbRouting 101
            = some { id := 101, name := "Salad", price := 5 } from rfl]; decide⟩
      · cases h)
  exact ⟨h.1 11 (by rfl), h.2.1⟩

/-- A successful `createLines` returns items that all belong to the new order
with status pending, and a running total equal to the sum of their
price * quantity. -/
theorem createLines_spec (db : DB) (oid : Nat) :
    ∀ (reqs : List OrderItemRequest) (nid : Nat) (items : List OrderItem)
      (mods : List OrderItemModifier) (total : Int) (nid' : Nat),
      createLines db oid nid reqs = .ok (items, mods, total, nid') →
      total = (items.map (fun i => i.price * i.quantity)).sum ∧
      ∀ i ∈ items, i.orderId = oid ∧ i.status = .pending := by
  intro reqs
  induction reqs with
  | nil =>
    intro nid items mods total nid' h
    unfold createLines at h
    cases h
    exact ⟨rfl, by simp⟩
  | cons req t ih =>
    intro nid items mods total nid' h
    unfold createLines at h
    cases hm : findMenuItem db req.menuItemId with
    | none =>
      rw [hm] at h
      cases h
    | some mi =>
      rw [hm] at h
      dsimp only at h
      cases hr : resolveStation db req.menuItemId with
      | none =>
        rw [hr] at h
        cases h
      | some sid =>
        rw [hr] at h
        dsimp only at h
        by_cases hq : req.quantity ≤ 0
        · rw [if_pos hq] at h
          cases h
        · rw [if_neg hq] at h
          cases hb : buildModifiers db nid (nid + 1) req.modifiers with
          | error e =>
            rw [hb] at h
            cases h
          | ok x =>
            obtain ⟨mods0, adj, nid2⟩ := x
            rw [hb] at h
            dsimp only at h
            by_cases hp : mi.price + adj < 0
            · rw [if_pos hp] at h
              cases h
            · rw [if_neg hp] at h
              cases hcl : createLines db oid nid2 t with
              | error e =>
                rw [hcl] at h
                cases h
              | ok y =>
                obtain ⟨items0, mods1, total0, nid3⟩ := y
                rw [hcl] at h
                obtain ⟨ht, hall⟩ := ih nid2 items0 mods1 total0 nid3 hcl
                cases h
                constructor
                · rw [List.map_cons, List.sum_cons, ← ht]
                · intro i hi
                  rcases List.mem_cons.mp hi with hh | hh
                  · subst hh
                    exact ⟨rfl, rfl⟩
                  · exact hall i hh

/-- `UpdateStatus` touches only order statuses and completion stamps, never a
total or an item row, so it preserves the pricing invariant. -/
theorem orderInvariant_updateStatus (db : DB) (oid oid' : Nat) (st : OrderStatus)
    (now : Nat) (inv : orderInvariant db oid) :
    orderInvariant (updateStatus db oid' st now).1 oid := by
  unfold updateStatus
  by_cases hany : db.orders.any (fun o => o.id == oid') = true
  · rw [if_pos hany]
    intro o' ho' hid
    rcases List.mem_map.mp ho' with ⟨o, ho, hfo⟩
    have hsum : sumNC { db with orders := db.orders.map (fun o =>
        if o.id == oid' then applyOrderStatus o st now else o) } oid = sumNC db oid := rfl
    rw [hsum]
    by_cases hoo : o.id = oid'
    · rw [if_pos (by simpa using hoo)] at hfo
      have htot : o'.total = o.total := by
        rw [← hfo]
        exact applyOrderStatus_total o st now
      have hoid : o.id = oid := by
        have : o'.id = o.id := by
          rw [← hfo]
          exact applyOrderStatus_id o st now
        rw [← this]
        exact hid
      rw [htot]
      exact inv o ho hoid
    · rw [if_neg (by simpa using hoo)] at hfo
      subst hfo
      exact inv o ho hid
  · rw [if_neg hany]
    exact inv

/-- The item-status UPDATE of `UpdateItemStatus` preserves the pricing
invariant as long as neither the new status nor the item's current status is
Cancelled (the set of non-cancelled items, their prices and quantities, and
every total are unchanged). -/
theorem orderInvariant_mapItemStatus (db : DB) (oid itemId now : Nat)
    (st : OrderItemStatus) (hst : st ≠ .cancelled)
    (hItems : ∀ i ∈ db.orderItems, i.id = itemId → i.status ≠ .cancelled)
    (inv : orderInvariant db oid) :
    orderInvariant { db with orderItems := db.orderItems.map (fun i =>
        if i.id == itemId then applyItemStatus i st now else i) } oid := by
  intro o ho hid
  have hsum : sumNC { db with orderItems := db.orderItems.map (fun i =>
      if i.id == itemId then applyItemStatus i st now else i) } oid = sumNC db oid := by
    unfold sumNC
    dsimp only
    rw [List.map_map]
    refine (sum_map_congr db.orderItems (itemContribution oid) _ ?_).symm
    intro x hx
    show itemContribution oid x
        = itemContribution oid (if x.id == itemId then applyItemStatus x st now else x)
    by_cases hxi : x.id = itemId
    · rw [if_pos (by simpa using hxi)]
      unfold itemContribution
      by_cases hor : x.orderId = oid
      · rw [if_pos ⟨hor, hItems x hx hxi⟩,
            if_pos ⟨by rw [applyItemStatus_orderId]; exact hor,
                    by rw [applyItemStatus_status]; exact hst⟩,
            applyItemStatus_price, applyItemStatus_quantity]
      · rw [if_neg (fun hc => hor hc.1),
            if_neg (fun hc => hor (by rw [applyItemStatus_orderId] at hc; exact hc.1))]
    · rw [if_neg (by simpa using hxi)]
  rw [hsum]
  exact inv o ho hid


/-- A successful `Create` leaves the new order satisfying the pricing
invariant, provided the fresh id is really fresh (no pre-existing order or
item row uses it). -/
theorem orderInvariant_create (db : DB) (uid : Nat) (onum : String) (st : OrderStatus)
    (reqs : List OrderItemRequest) (db' : DB) (o : Order) (items : List OrderItem)
    (hc : create db uid onum st reqs = .ok (db', o, items))
    (horders : ∀ o' ∈ db.orders, o'.id ≠ db.nextId)
    (hitems : ∀ i ∈ db.orderItems, i.orderId ≠ db.nextId) :
    orderInvariant db' o.id := by
  unfold create at hc
  dsimp only at hc
  cases hcl : createLines db db.nextId (db.nextId + 1) reqs with
  | error e =>
    rw [hcl] at hc
    cases hc
  | ok x =>
    obtain ⟨items0, mods0, total0, nid0⟩ := x
    rw [hcl] at hc
    obtain ⟨ht, hall⟩ := createLines_spec db db.nextId reqs (db.nextId + 1)
      items0 mods0 total0 nid0 hcl
    cases hc
    intro o' ho' hid
    rcases List.mem_append.mp ho' with ho' | ho'
    · exact absurd hid (horders o' ho')
    · have ho'' := List.mem_singleton.mp ho'
      subst ho''
      unfold sumNC
      dsimp only
      rw [List.map_append, List.sum_append]
      have hold : (db.orderItems.map (itemContribution db.nextId)).sum = 0 := by
        apply List.sum_eq_zero
        intro x hx
        rcases List.mem_map.mp hx with ⟨i, hi, hfi⟩
        rw [← hfi]
        unfold itemContribution
        rw [if_neg (fun hcond => hitems i hi hcond.1)]
      have hnew : (items.map (itemContribution db.nextId)).sum
          = (items.map (fun i => i.price * i.quantity)).sum := by
        apply sum_map_congr
        intro i hi
        obtain ⟨hio, his⟩ := hall i hi
        unfold itemContribution
        rw [if_pos ⟨hio, by rw [his]; exact fun hcc => OrderItemStatus.noConfusion hcc⟩]
      rw [hold, hnew, ← ht]
      omega

/-- `VoidItem` on a not-yet-cancelled item preserves the pricing invariant for
every order: the voided item leaves the non-cancelled sum at the same moment
its price * quantity is subtracted from the owning order's total. -/
theorem orderInvariant_voidItem (db : DB) (itemId : Nat) (reason : String)
    (i0 : OrderItem) (db' : DB) (oid : Nat)
    (hi0 : i0 ∈ db.orderItems) (hid : i0.id = itemId)
    (huniq : db.orderItems.countP (fun i => i.id == itemId) = 1)
    (hstat : i0.status ≠ .cancelled)
    (hv : voidItem db itemId reason = .ok db')
    (inv : orderInvariant db oid) :
    orderInvariant db' oid := by
  unfold voidItem at hv
  dsimp only at hv
  have hpred : ∀ x : OrderItem,
      ((if x.id == itemId then applyVoid x reason else x).id == itemId)
        = (x.id == itemId) := by
    intro x
    split <;> simp_all
  cases hfind : (db.orderItems.map (fun i =>
      if i.id == itemId then applyVoid i reason else i)).find?
        (fun i => i.id == itemId) with
  | none =>
    rw [hfind] at hv
    cases hv
  | some it =>
    rw [hfind] at hv
    have hcnt : (db.orderItems.map (fun i =>
        if i.id == itemId then applyVoid i reason else i)).countP
          (fun i => i.id == itemId) = 1 := by
      rw [countP_map_pres _ _ _ hpred]
      exact huniq
    have hfind2 : (db.orderItems.map (fun i =>
        if i.id == itemId then applyVoid i reason else i)).find?
          (fun i => i.id == itemId)
        = some (if i0.id == itemId then applyVoid i0 reason else i0) :=
      find?_of_countP_one _ _ _ hcnt
        (List.mem_map_of_mem _ hi0) (by rw [hpred]; simpa using hid)
    have hit : it = applyVoid i0 reason := by
      rw [hfind] at hfind2
      have h3 := Option.some.inj hfind2
      rw [if_pos (by simpa using hid)] at h3
      exact h3
    subst hit
    have hmap : (List.map (itemContribution oid) (List.map (fun i =>
          if i.id == itemId then applyVoid i reason else i) db.orderItems)).sum
        = (List.map (itemContribution oid) db.orderItems).sum
            + (itemContribution oid (applyVoid i0 reason) - itemContribution oid i0) := by
      rw [List.map_map]
      have h4 := sum_map_update_unique db.orderItems (fun i => i.id == itemId) i0
        (itemContribution oid)
        (fun i => itemContribution oid (if i.id == itemId then applyVoid i reason else i))
        huniq hi0 (by simpa using hid)
        (fun y hy => by
          show itemContribution oid (if y.id == itemId then applyVoid y reason else y)
              = itemContribution oid y
          rw [if_neg (by simp [hy])])
      have hbeta : (fun i => itemContribution oid
            (if i.id == itemId then applyVoid i reason else i)) i0
          = itemContribution oid (applyVoid i0 reason) := by
        show itemContribution oid (if i0.id == itemId then applyVoid i0 reason else i0) = _
        rw [if_pos (by simpa using hid)]
      rw [hbeta] at h4
      exact h4
    have hcv : itemContribution oid (applyVoid i0 reason) = 0 := by
      unfold itemContribution
      rw [if_neg (fun hc => hc.2 (applyVoid_status i0 reason))]
    cases hv
    intro o' ho' hid'
    rcases List.mem_map.mp ho' with ⟨o, ho, hgo⟩
    show o'.total = sumNC _ oid
    unfold sumNC
    dsimp only
    rw [hmap, hcv]
    by_cases hoid : i0.orderId = oid
    · have hc0 : itemContribution oid i0 = i0.price * i0.quantity := by
        unfold itemContribution
        rw [if_pos ⟨hoid, hstat⟩]
      rw [hc0]
      by_cases ho2 : o.id = i0.orderId
      · rw [if_pos (by rw [applyVoid_orderId]; simpa using ho2)] at hgo
        have htot : o'.total = o.total
            - (applyVoid i0 reason).price * (applyVoid i0 reason).quantity := by
          rw [← hgo]
        have hoido : o.id = oid := by
          have hids : o'.id = o.id := by rw [← hgo]
          rw [← hids]
          exact hid'
        have hibase : o.total = (List.map (itemContribution oid) db.orderItems).sum :=
          inv o ho hoido
        rw [htot, applyVoid_price, applyVoid_quantity, hibase]
        omega
      · exfalso
        rw [if_neg (by rw [applyVoid_orderId]; simpa using ho2)] at hgo
        subst hgo
        exact ho2 (hid'.trans hoid.symm)
    · have hc0 : itemContribution oid i0 = 0 := by
        unfold itemContribution
        rw [if_neg (fun hc => hoid hc.1)]
      rw [hc0]
      by_cases ho2 : o.id = i0.orderId
      · exfalso
        rw [if_pos (by rw [applyVoid_orderId]; simpa using ho2)] at hgo
        have hids : o'.id = o.id := by rw [← hgo]
        exact hoid (ho2.symm.trans (hids.symm.trans hid'))
      · rw [if_neg (by rw [applyVoid_orderId]; simpa using ho2)] at hgo
        subst hgo
        have hibase : o.total = (List.map (itemContribution oid) db.orderItems).sum :=
          inv o ho hid'
        rw [hibase]
        omega

/-- `UpdateItemStatus` (no injected fault) preserves the pricing invariant as
long as the transition does not move the item into or out of the Cancelled
set: neither the new status nor the item's current status is Cancelled.  All
of its statements only touch item statuses, timestamps and the order status -
never a price, a quantity or a total. -/
theorem orderInvariant_updateItemStatus (db : DB) (oid itemId now : Nat)
    (st : OrderItemStatus) (hst : st ≠ .cancelled)
    (hItems : ∀ i ∈ db.orderItems, i.id = itemId → i.status ≠ .cancelled)
    (inv : orderInvariant db oid) :
    orderInvariant (updateItemStatus db itemId st now none).1 oid := by
  unfold updateItemStatus
  rw [if_neg (by simp)]
  by_cases hany : db.orderItems.any (fun i => i.id == itemId) = true
  · rw [if_pos hany]
    dsimp only
    have hinv1 : orderInvariant { db with orderItems := db.orderItems.map (fun i =>
        if i.id == itemId then applyItemStatus i st now else i) } oid :=
      orderInvariant_mapItemStatus db oid itemId now st hst hItems inv
    by_cases hcomp : st = .completed
    · rw [if_pos hcomp]
      rw [if_neg (by simp)]
      cases hfind : ({ db with orderItems := db.orderItems.map (fun i =>
          if i.id == itemId then applyItemStatus i st now else i) } : DB).orderItems.find?
            (fun i => i.id == itemId) with
      | none =>
        exact hinv1
      | some it =>
        dsimp only
        rw [if_neg (by simp)]
        by_cases hpc : ({ db with orderItems := db.orderItems.map (fun i =>
            if i.id == itemId then applyItemStatus i st now else i) } : DB).orderItems.countP
              (fun i => i.orderId == it.orderId
                && !(i.status == OrderItemStatus.completed)) = 0
        · rw [if_pos hpc, if_neg (by simp)]
          exact orderInvariant_updateStatus _ oid it.orderId .completed now hinv1
        · rw [if_neg hpc]
          exact hinv1
    · rw [if_neg hcomp]
      exact hinv1
  · rw [if_neg hany]
    exact inv

/-- C1 amended: the pricing invariant `total = Σ over non-cancelled items of
price * quantity` holds for an order as `Create` returns it (given fresh ids),
and is preserved by `UpdateItemStatus` whenever neither the new status nor the
item's current status is Cancelled, and by `VoidItem` on an item that is not
already Cancelled.  (The counterexample shows the unrestricted claim fails:
`UpdateItemStatus(item, Cancelled)` cancels an item without adjusting the
total, and a repeated `VoidItem` decrements the total a second time.) -/
theorem c1_amended :
    (∀ (db : DB) (uid : Nat) (onum : String) (st : OrderStatus)
        (reqs : List OrderItemRequest) (db' : DB) (o : Order) (items : List OrderItem),
        create db uid onum st reqs = .ok (db', o, items) →
        (∀ o' ∈ db.orders, o'.id ≠ db.nextId) →
        (∀ i ∈ db.orderItems, i.orderId ≠ db.nextId) →
        orderInvariant db' o.id)
    ∧ (∀ (db : DB) (oid itemId now : Nat) (st : OrderItemStatus),
        st ≠ .cancelled →
        (∀ i ∈ db.orderItems, i.id = itemId → i.status ≠ .cancelled) →
        orderInvariant db oid →
        orderInvariant (updateItemStatus db itemId st now none).1 oid)
    ∧ (∀ (db : DB) (itemId : Nat) (reason : String) (i0 : OrderItem) (db' : DB) (oid : Nat),
        i0 ∈ db.orderItems → i0.id = itemId →
        db.orderItems.countP (fun i => i.id == itemId) = 1 →
        i0.status ≠ .cancelled →
        voidItem db itemId reason = .ok db' →
        orderInvariant db oid →
        orderInvariant db' oid) :=
  ⟨fun db uid onum st reqs db' o items hc h1 h2 =>
      orderInvariant_create db uid onum st reqs db' o items hc h1 h2,
   fun db oid itemId now st h1 h2 h3 =>
      orderInvariant_updateItemStatus db oid itemId now st h1 h2 h3,
   fun db itemId reason i0 db' oid h1 h2 h3 h4 h5 h6 =>
      orderInvariant_voidItem db itemId reason i0 db' oid h1 h2 h3 h4 h5 h6⟩

/-- C1 witness: the invariant holds for the order returned by a concrete
`Create` over the sample state, is preserved by completing item 2, and is
preserved by the first void of item 2. -/
theorem c1_witness :
    orderInvariant { sampleDB with orders := sampleDB.orders ++ [emptyOrder], nextId := 201 }
      emptyOrder.id ∧
    orderInvariant (updateItemStatus sampleDB 2 .completed 4 none).1 1 ∧
    orderInvariant (runVoid sampleDB 2 "a") 1 := by
  refine ⟨?_, ?_, ?_⟩
  · exact c1_amended.1 sampleDB 9 "20260101-ff00" .new []
      { sampleDB with orders := sampleDB.orders ++ [emptyOrder], nextId := 201 }
      emptyOrder [] (by rfl) (by decide) (by decide)
  · exact c1_amended.2.1 sampleDB 1 2 4 .completed (by decide) (by decide) (by decide)
  · exact c1_amended.2.2 sampleDB 2 "a" sampleItem (runVoid sampleDB 2 "a") 1
      (by decide) (by decide) (by decide) (by decide) (by rfl) (by decide)

/-- C2 amended: after `UpdateItemStatus(item, Completed)` the order is
cascaded to Completed if and only if EVERY item of the order - cancelled ones
included - has status Completed.  Cancelled items are NOT excluded from the
check (the code counts rows with `status != completed`, which a Cancelled row
satisfies), so an order with a cancelled item never auto-completes, and an
order whose items are all cancelled trivially never auto-completes either. -/
theorem c2_cascade_iff_all_items_completed (db : DB) (itemId now oid : Nat)
    (i0 : OrderItem) (o0 : Order)
    (hi0 : i0 ∈ db.orderItems) (hid : i0.id = itemId)
    (huniq : db.orderItems.countP (fun i => i.id == itemId) = 1)
    (hoid : i0.orderId = oid)
    (ho0 : o0 ∈ db.orders) (ho0id : o0.id = oid)
    (hnc : ∀ o ∈ db.orders, o.id = oid → o.status ≠ .completed) :
    ((∀ o ∈ (updateItemStatus db itemId .completed now none).1.orders,
        o.id = oid → o.status = .completed)
      ↔ (∀ i ∈ (updateItemStatus db itemId .completed now none).1.orderItems,
          i.orderId = oid → i.status = .completed)) := by
  have hany : db.orderItems.any (fun i => i.id == itemId) = true :=
    List.any_eq_true.mpr ⟨i0, hi0, by simpa using hid⟩
  have hpred : ∀ x : OrderItem,
      ((if x.id == itemId then applyItemStatus x .completed now else x).id == itemId)
        = (x.id == itemId) := by
    intro x
    split <;> simp_all
  have hcnt : (db.orderItems.map (fun i =>
      if i.id == itemId then applyItemStatus i .completed now else i)).countP
        (fun i => i.id == itemId) = 1 := by
    rw [countP_map_pres _ _ _ hpred]
    exact huniq
  have hfind : (db.orderItems.map (fun i =>
      if i.id == itemId then applyItemStatus i .completed now else i)).find?
        (fun i => i.id == itemId)
      = some (if i0.id == itemId then applyItemStatus i0 .completed now else i0) :=
    find?_of_countP_one _ _ _ hcnt
      (List.mem_map_of_mem _ hi0) (by rw [hpred]; simpa using hid)
  rw [if_pos (by simpa using hid)] at hfind
  have hito : (applyItemStatus i0 .completed now).orderId = oid := by
    rw [applyItemStatus_orderId]
    exact hoid
  unfold updateItemStatus
  rw [if_neg (by simp), if_pos hany]
  dsimp only
  rw [if_pos rfl, if_neg (by simp), hfind]
  dsimp only
  rw [if_neg (by simp)]
  by_cases hpc : (db.orderItems.map (fun i =>
      if i.id == itemId then applyItemStatus i .completed now else i)).countP
        (fun i => i.orderId == (applyItemStatus i0 .completed now).orderId
          && !(i.status == OrderItemStatus.completed)) = 0
  · rw [if_pos hpc, if_neg (by simp)]
    have hany2 : (db.orders.any
        (fun o => o.id == (applyItemStatus i0 .completed now).orderId)) = true :=
      List.any_eq_true.mpr ⟨o0, ho0, by rw [hito]; simpa using ho0id⟩
    unfold updateStatus
    dsimp only
    rw [if_pos hany2]
    apply iff_of_true
    · intro o ho hoid2
      rcases List.mem_map.mp ho with ⟨o1, ho1, hgo⟩
      by_cases h1 : o1.id = (applyItemStatus i0 .completed now).orderId
      · rw [if_pos (by simpa using h1)] at hgo
        rw [← hgo, applyOrderStatus_status]
      · exfalso
        rw [if_neg (by simpa using h1)] at hgo
        subst hgo
        exact h1 (by rw [hito]; exact hoid2)
    · intro i hi hio
      have hz := List.countP_eq_zero.mp hpc i hi
      by_contra hne
      apply hz
      rw [Bool.and_eq_true]
      constructor
      · rw [hito]
        simpa using hio
      · cases hsc : (i.status == OrderItemStatus.completed) with
        | true =>
          exfalso
          exact hne ((orderItemStatus_beq_iff _ _).mp hsc)
        | false => rfl
  · rw [if_neg hpc]
    apply iff_of_false
    · intro hall
      exact hnc o0 ho0 ho0id (hall o0 ho0 ho0id)
    · intro hall
      apply hpc
      rw [List.countP_eq_zero]
      intro i hi hcontra
      rw [Bool.and_eq_true] at hcontra
      obtain ⟨ha, hb⟩ := hcontra
      have hio : i.orderId = oid := by
        have := by simpa using ha
        rw [← hito]
        exact this
      have hst := hall i hi hio
      rw [Bool.not_eq_true'] at hb
      rw [(by simpa using hst : (i.status == OrderItemStatus.completed) = true)] at hb
      cases hb

/-- State with order 1 in progress owning a pending item 2 and an already
completed item 3. -/
def dbTwoDone : DB :=
  { sampleDB with
    orderItems := [sampleItem,
      { id := 3, orderId := 1, menuItemId := 100, stationId := 5, quantity := 1, price := 10,
        status := .completed, specialInstructions := none, sentToStationAt := none,
        completedAt := some 2, name := "Pizza" }] }

/-- C2 witness: completing item 2 of `dbTwoDone` cascades order 1 exactly when
every item of the order is completed afterwards. -/
theorem c2_witness :
    ((∀ o ∈ (updateItemStatus dbTwoDone 2 .completed 4 none).1.orders,
        o.id = 1 → o.status = .completed)
      ↔ (∀ i ∈ (updateItemStatus dbTwoDone 2 .completed 4 none).1.orderItems,
          i.orderId = 1 → i.status = .completed)) :=
  c2_cascade_iff_all_items_completed dbTwoDone 2 4 1 sampleItem sampleOrder
    (by decide) (by decide) (by decide) (by decide) (by decide) (by decide) (by decide)

/-- When some request line has a non-positive quantity, the per-line loop
fails: at that line the schema CHECK (quantity > 0) rejects the insert, or an
earlier line already failed a lookup. -/
theorem createLines_error_of_bad_qty (db : DB) (oid : Nat) :
    ∀ (reqs : List OrderItemRequest) (nid : Nat),
      (∃ req ∈ reqs, req.quantity ≤ 0) →
      ∃ e, createLines db oid nid reqs = .error e := by
  intro reqs
  induction reqs with
  | nil =>
    intro nid hbad
    rcases hbad with ⟨req, hmem, _⟩
    cases hmem
  | cons req t ih =>
    intro nid hbad
    unfold createLines
    cases hm : findMenuItem db req.menuItemId with
    | none => exact ⟨.notFound, rfl⟩
    | some mi =>
      dsimp only
      cases hr : resolveStation db req.menuItemId with
      | none => exact ⟨.notFound, rfl⟩
      | some sid =>
        dsimp only
        by_cases hq : req.quantity ≤ 0
        · rw [if_pos hq]
          exact ⟨.checkViolation, rfl⟩
        · rw [if_neg hq]
          have hbad' : ∃ r ∈ t, r.quantity ≤ 0 := by
            rcases hbad with ⟨r, hmemr, hqr⟩
            rcases List.mem_cons.mp hmemr with h | h
            · exact absurd (h ▸ hqr) hq
            · exact ⟨r, h, hqr⟩
          cases hb : buildModifiers db nid (nid + 1) req.modifiers with
          | error e => exact ⟨e, rfl⟩
          | ok x =>
            obtain ⟨mods, adj, nid2⟩ := x
            dsimp only
            by_cases hp : mi.price + adj < 0
            · rw [if_pos hp]
              exact ⟨.checkViolation, rfl⟩
            · rw [if_neg hp]
              obtain ⟨e, he⟩ := ih nid2 hbad'
              rw [he]
              exact ⟨e, rfl⟩

/-- C10 amended: an empty line set is NOT rejected - `Create` succeeds and
persists an order with no items and total 0 - while a line with non-positive
quantity does make the creation fail (through the database CHECK constraint
or an earlier lookup failure, not through any input-validation layer: the
handler performs none and the `validate` struct tags are never enforced), and
then no order is created. -/
theorem c10_amended :
    (∀ (db : DB) (uid : Nat) (onum : String) (st : OrderStatus),
        ∃ o : Order, create db uid onum st []
          = .ok ({ db with orders := db.orders ++ [o],
                           orderItems := db.orderItems ++ [],
                           orderItemModifiers := db.orderItemModifiers ++ [],
                           nextId := db.nextId + 1 }, o, []) ∧ o.total = 0)
    ∧ (∀ (db : DB) (uid : Nat) (onum : String) (st : OrderStatus)
        (reqs : List OrderItemRequest),
        (∃ req ∈ reqs, req.quantity ≤ 0) →
        (∃ e, create db uid onum st reqs = .error e)
        ∧ runCreate db uid onum st reqs = db) := by
  constructor
  · intro db uid onum st
    exact ⟨{ id := db.nextId, userId := uid, orderNumber := onum, status := st,
             total := 0, completedAt := none }, rfl, rfl⟩
  · intro db uid onum st reqs hbad
    obtain ⟨e, he⟩ := createLines_error_of_bad_qty db db.nextId reqs (db.nextId + 1) hbad
    have hcreate : create db uid onum st reqs = .error e := by
      unfold create
      dsimp only
      rw [he]
    refine ⟨⟨e, hcreate⟩, ?_⟩
    unfold runCreate
    rw [hcreate]

/-- C10 witness: over the sample state, the empty line set yields an order
with total 0, and a single line of quantity 0 makes creation fail with the
database untouched. -/
theorem c10_witness :
    (∃ o : Order, create sampleDB 9 "20260101-ff00" .new []
      = .ok ({ sampleDB with orders := sampleDB.orders ++ [o],
                             orderItems := sampleDB.orderItems ++ [],
                             orderItemModifiers := sampleDB.orderItemModifiers ++ [],
                             nextId := 201 }, o, []) ∧ o.total = 0) ∧
    runCreate sampleDB 9 "20260101-ff00" .new
      [{ menuItemId := 100, quantity := 0, specialInstructions := none, modifiers := [] }]
      = sampleDB := by
  constructor
  · exact c10_amended.1 sampleDB 9 "20260101-ff00" .new
  · exact (c10_amended.2 sampleDB 9 "20260101-ff00" .new
      [{ menuItemId := 100, quantity := 0, specialInstructions := none, modifiers := [] }]
      ⟨{ menuItemId := 100, quantity := 0, specialInstructions := none, modifiers := [] },
        List.mem_cons_self _ _, by decide⟩).2
